import Mathlib

/-!
Shallow embedding of the `@pentops/jsonapi-request` TypeScript library
(`src/index.ts` and `src/error.ts`): parameter sanitization, query-string
building, request assembly (merged and split variants), response parsing
dispatch, and the structured API error. JavaScript runtime values are
modelled by the `JSValue` tree; platform builtins used by the library
(`JSON.stringify`, `JSON.parse`, `encodeURIComponent` via the `qs` package,
and the WHATWG `URL` constructor) are modelled explicitly below, each with a
comment stating the behavior modelled.
-/

/-- Model of a JavaScript runtime value as the library manipulates them: the
JSON scalars, `undefined`, `Date` objects (carried as their ISO-8601
`toISOString` text, the only observation the library makes of a date), arrays
and plain objects. Objects are association lists in property-insertion order;
JavaScript objects never hold duplicate keys, so lists with duplicate keys
are outside the image of the model. -/
inductive JSValue where
  | str (s : String)
  | num (n : Int)
  | bool (b : Bool)
  | null
  | undefined
  | date (iso : String)
  | arr (items : List JSValue)
  | obj (fields : List (String × JSValue))
  deriving Repr

/-- JavaScript truthiness for the modelled values: `'' `, `0`, `false`,
`null` and `undefined` are falsy; every other scalar, every date, every array
and every object (including the empty ones) is truthy. -/
def jsTruthy : JSValue → Bool
  | .str s => s ≠ ""
  | .num n => n ≠ 0
  | .bool b => b
  | .null => false
  | .undefined => false
  | .date _ => true
  | .arr _ => true
  | .obj _ => true

/-- The membership test `['', null, undefined].includes(v)` used by
`prepareParameters` on object property values. -/
def isAbsentRaw : JSValue → Bool
  | .str s => s = ""
  | .null => true
  | .undefined => true
  | _ => false

mutual

/-- Embedding of `prepareParameters` (src/index.ts lines 45-79): empty
string, `undefined` and `null` collapse to the `null` sentinel; arrays keep,
in order, the recursively prepared elements that are truthy (the source
accumulates them with `reduce`/`push`, modelled here by the equivalent
left-to-right recursion `prepareList`); dates pass through; objects drop
keys whose raw value is `''`/`null`/`undefined` and recursively prepare the
surviving values (source: `Object.entries(...).reduce` with spread,
modelled by `prepareFields`); remaining scalars pass through. -/
def prepareParameters : JSValue → JSValue
  | .str s => if s = "" then .null else .str s
  | .undefined => .null
  | .null => .null
  | .arr xs => .arr (prepareList xs)
  | .date iso => .date iso
  | .obj kvs => .obj (prepareFields kvs)
  | .num n => .num n
  | .bool b => .bool b

/-- Array branch of `prepareParameters`: `params.reduce((accum, curr) =>
... if (prepared) accum.push(prepared) ...)`. -/
def prepareList : List JSValue → List JSValue
  | [] => []
  | curr :: rest =>
    let prepared := prepareParameters curr
    if jsTruthy prepared then prepared :: prepareList rest else prepareList rest

/-- Object branch of `prepareParameters`: keys whose raw value is in
`['', null, undefined]` are dropped, the rest are recursively prepared. -/
def prepareFields : List (String × JSValue) → List (String × JSValue)
  | [] => []
  | (k, v) :: rest =>
    if isAbsentRaw v then prepareFields rest
    else (k, prepareParameters v) :: prepareFields rest

end

/-- Uppercase hexadecimal digit, for percent escapes. -/
def hexDigitUpper (n : Nat) : Char :=
  if n < 10 then Char.ofNat (48 + n) else Char.ofNat (55 + n)

/-- Lowercase hexadecimal digit, for JSON `\u00xx` escapes. -/
def hexDigitLower (n : Nat) : Char :=
  if n < 10 then Char.ofNat (48 + n) else Char.ofNat (87 + n)

/-- UTF-8 encoding of a single code point, as the byte values. -/
def utf8Bytes (c : Char) : List Nat :=
  let n := c.toNat
  if n < 128 then [n]
  else if n < 2048 then [192 + n / 64, 128 + n % 64]
  else if n < 65536 then [224 + n / 4096, 128 + (n / 64) % 64, 128 + n % 64]
  else [240 + n / 262144, 128 + (n / 4096) % 64, 128 + (n / 64) % 64, 128 + n % 64]

/-- Percent escape of one byte, with uppercase hex as produced by
`encodeURIComponent` and the `qs` encoder. -/
def percentEscapeByte (b : Nat) : String :=
  "%" ++ String.singleton (hexDigitUpper (b / 16)) ++ String.singleton (hexDigitUpper (b % 16))

/-- Characters the `qs` RFC 3986 encoder leaves unescaped: ASCII
alphanumerics and `-`, `.`, `_`, `~`. -/
def qsUnescapedChar (c : Char) : Bool :=
  c.isAlphanum || c = '-' || c = '.' || c = '_' || c = '~'

/-- Model of the `qs` package's default (RFC 3986) string encoder, as used
by `stringify`: every character outside the unescaped set is replaced by the
percent escapes of its UTF-8 bytes. -/
def qsEncode (s : String) : String :=
  String.join (s.toList.map fun c =>
    if qsUnescapedChar c then String.singleton c
    else String.join ((utf8Bytes c).map percentEscapeByte))

/-- JSON string escape of one character, per `JSON.stringify`. -/
def jsonEscapeChar (c : Char) : String :=
  if c = '"' then "\\\""
  else if c = '\\' then "\\\\"
  else if c = '\n' then "\\n"
  else if c = '\t' then "\\t"
  else if c = '\r' then "\\r"
  else if c.toNat = 8 then "\\b"
  else if c.toNat = 12 then "\\f"
  else if c.toNat < 32 then
    "\\u00" ++ String.singleton (hexDigitLower (c.toNat / 16)) ++ String.singleton (hexDigitLower (c.toNat % 16))
  else String.singleton c

/-- JSON quoted-string form of a string. -/
def jsonQuote (s : String) : String :=
  "\"" ++ String.join (s.toList.map jsonEscapeChar) ++ "\""

mutual

/-- Model of the platform builtin `JSON.stringify` on the modelled values:
scalars print as JSON literals, dates serialize through `toJSON` to their
quoted ISO string, arrays bracket their comma-joined elements (`undefined`
elements print as `null`), objects brace their comma-joined
`"key":value` entries with `undefined`-valued keys omitted. The library
only applies it to array and object values (`typeof v === 'object'`), so
the `undefined` top-level case (where the real builtin returns no string at
all) is unreachable and modelled as `"null"`. -/
def jsonStringify : JSValue → String
  | .str s => jsonQuote s
  | .num n => toString n
  | .bool b => if b then "true" else "false"
  | .null => "null"
  | .undefined => "null"
  | .date iso => jsonQuote iso
  | .arr xs => "[" ++ String.intercalate "," (jsonArrItems xs) ++ "]"
  | .obj kvs => "\x7b" ++ String.intercalate "," (jsonObjItems kvs) ++ "\x7d"

/-- Serialized elements of a JSON array. -/
def jsonArrItems : List JSValue → List String
  | [] => []
  | x :: rest => jsonStringify x :: jsonArrItems rest

/-- Serialized entries of a JSON object; `undefined` values are omitted. -/
def jsonObjItems : List (String × JSValue) → List String
  | [] => []
  | (k, v) :: rest =>
    match v with
    | .undefined => jsonObjItems rest
    | _ => (jsonQuote k ++ ":" ++ jsonStringify v) :: jsonObjItems rest

end

mutual

/-- Model of the `qs` package's `stringify` recursion for one key, under the
options the library passes (`arrayFormat: 'repeat'`, `allowDots: true`,
`skipNulls: true`, default RFC 3986 encoding, default date serializer
`toISOString`): `null` (by `skipNulls`) and `undefined` values produce no
pairs; scalars and dates produce one encoded `key=value` pair; each array
element recurses under the same key (repeat format); each object entry
recurses under `key.subkey` (dot notation). -/
def qsPairs (k : String) : JSValue → List String
  | .null => []
  | .undefined => []
  | .str s => [qsEncode k ++ "=" ++ qsEncode s]
  | .num n => [qsEncode k ++ "=" ++ qsEncode (toString n)]
  | .bool b => [qsEncode k ++ "=" ++ qsEncode (if b then "true" else "false")]
  | .date iso => [qsEncode k ++ "=" ++ qsEncode iso]
  | .arr xs => qsPairsList k xs
  | .obj kvs => qsPairsFields k kvs

/-- Repeat-format expansion of an array value: every element under the same
key. -/
def qsPairsList (k : String) : List JSValue → List String
  | [] => []
  | x :: rest => qsPairs k x ++ qsPairsList k rest

/-- Dot-notation expansion of a nested object value. -/
def qsPairsFields (k : String) : List (String × JSValue) → List String
  | [] => []
  | (k2, v) :: rest => qsPairs (k ++ "." ++ k2) v ++ qsPairsFields k rest

end

/-- Pairs produced for the top-level keys of an object passed to
`qs.stringify`. -/
def qsTopFields : List (String × JSValue) → List String
  | [] => []
  | (k, v) :: rest => qsPairs k v ++ qsTopFields rest

/-- Pairs produced for a top-level array passed to `qs.stringify`: the
object keys of an array are its indices. -/
def qsTopItems : Nat → List JSValue → List String
  | _, [] => []
  | i, x :: rest => qsPairs (toString i) x ++ qsTopItems (i + 1) rest

/-- The complete pair list `qs.stringify` produces for a value: object keys
or array indices at the top, nothing for a non-object input. -/
def qsValuePairs : JSValue → List String
  | .obj kvs => qsTopFields kvs
  | .arr xs => qsTopItems 0 xs
  | _ => []

/-- Model of `qs.stringify` under the library's options
(`addQueryPrefix: true` plus those of `qsPairs`): the `&`-joined pairs get a
leading `?` exactly when the joined text is non-empty. -/
def qsStringify (v : JSValue) : String :=
  if (qsValuePairs v).isEmpty then "" else "?" ++ String.intercalate "&" (qsValuePairs v)

/-- The test `typeof v === 'object' && !(v instanceof Date)` applied by
`buildSearchString` to each top-level property value: true for arrays,
objects and `null` (whose `typeof` is `'object'`), false for dates and all
other scalars. -/
def isStructuredValue : JSValue → Bool
  | .arr _ => true
  | .obj _ => true
  | .null => true
  | _ => false

/-- The mutation loop of `buildSearchString` (src/index.ts lines 88-94):
when the prepared value is object-typed, every key (for an array: every
index) holding a structured non-Date value is overwritten with its
`JSON.stringify` text. -/
def stringifyTopLevelObjects : JSValue → JSValue
  | .obj kvs => .obj (kvs.map fun p => if isStructuredValue p.2 then (p.1, .str (jsonStringify p.2)) else p)
  | .arr xs => .arr (xs.map fun x => if isStructuredValue x then .str (jsonStringify x) else x)
  | v => v

/-- Embedding of `buildSearchString` (src/index.ts lines 81-97): prepare the
parameters, return `''` when the prepared value is falsy, otherwise JSON-ify
structured top-level values and hand the result to `qs.stringify` with
`addQueryPrefix`, repeat array format, dot notation and `skipNulls`. -/
def buildSearchString (params : JSValue) : String :=
  let preparedParams := prepareParameters params
  if jsTruthy preparedParams then qsStringify (stringifyTopLevelObjects preparedParams)
  else ""

mutual

/-- Model of the deep copy `JSON.parse(JSON.stringify(v))` performed by
`buildMergedRequestInit`: JSON scalars survive, dates come back as their ISO
strings (via `toJSON`), `undefined` array elements come back as `null` and
`undefined`-valued object keys disappear. The top-level `undefined` case
(where the real composition would throw on parsing the non-string
`undefined`) is unreachable because the source first replaces falsy
parameters with the empty object. -/
def jsonRoundTrip : JSValue → JSValue
  | .str s => .str s
  | .num n => .num n
  | .bool b => .bool b
  | .null => .null
  | .undefined => .null
  | .date iso => .str iso
  | .arr xs => .arr (jsonRoundTripList xs)
  | .obj kvs => .obj (jsonRoundTripFields kvs)

/-- Deep copy of the elements of an array. -/
def jsonRoundTripList : List JSValue → List JSValue
  | [] => []
  | x :: rest => jsonRoundTrip x :: jsonRoundTripList rest

/-- Deep copy of the entries of an object; `undefined`-valued keys are
dropped by `JSON.stringify`. -/
def jsonRoundTripFields : List (String × JSValue) → List (String × JSValue)
  | [] => []
  | (k, v) :: rest =>
    match v with
    | .undefined => jsonRoundTripFields rest
    | _ => (k, jsonRoundTrip v) :: jsonRoundTripFields rest

end

/-- Characters allowed after the first one in a URL scheme. -/
def isSchemeChar (c : Char) : Bool :=
  c.isAlphanum || c = '+' || c = '-' || c = '.'

/-- Scans a candidate scheme: returns the characters after the terminating
colon when the input starts with a run of scheme characters followed by
`:`. -/
def schemeSplit : List Char → Option (List Char)
  | [] => none
  | c :: rest => if c = ':' then some rest else if isSchemeChar c then schemeSplit rest else none

/-- Cuts a path at the first `?` or `#`, as the WHATWG `pathname` getter
excludes query and fragment. -/
def stripQueryFragment (s : String) : String :=
  String.mk (s.toList.takeWhile fun c => c != '?' && c != '#')

/-- Path portion of the characters following `scheme://`: skip the
authority, keep from the first `/` to the first `?` or `#`; a URL with no
path serializes its pathname as `/`. -/
def pathAfterHost (cs : List Char) : String :=
  let rest := cs.dropWhile fun c => c != '/' && c != '?' && c != '#'
  match rest with
  | '/' :: _ => String.mk (rest.takeWhile fun c => c != '?' && c != '#')
  | _ => "/"

/-- Directory part of a pathname: everything up to and including the last
`/` (the whole string when it has no slash). -/
def pathDirectory (s : String) : String :=
  String.mk (s.toList.reverse.dropWhile (fun c => c != '/')).reverse

/-- Pathname of an absolute URL string: the path after the authority for a
hierarchical `scheme://` URL, the opaque remainder otherwise. -/
def ownPathname (cs : List Char) : String :=
  match schemeSplit cs with
  | some afterColon =>
    if afterColon.take 2 = ['/', '/'] then pathAfterHost (afterColon.drop 2)
    else stripQueryFragment (String.mk afterColon)
  | none => "/"

/-- Modelled from the WHATWG URL standard: the platform builtin expression
`new URL(url, base).pathname`, which is not part of this repository. A base
that does not parse as an absolute URL (no `scheme:`, as with a relative
base such as `/api/v1`), or whose path is opaque (no `//` after the scheme),
makes the constructor throw a `TypeError`, modelled as `Except.error`. With
a hierarchical absolute base: a url that is itself absolute keeps its own
path; a url starting with `/` is the path, query and fragment stripped; any
other url is resolved against the directory of the base's path. Dot-segment
normalization and percent-encoding of exotic path characters are not
modelled; no claim exercises them. -/
def urlPathname (url base : String) : Except String String :=
  match base.toList with
  | [] => .error "Invalid base URL"
  | c :: rest =>
    if !c.isAlpha then .error "Invalid base URL"
    else
      match schemeSplit rest with
      | none => .error "Invalid base URL"
      | some afterColon =>
        if afterColon.take 2 ≠ ['/', '/'] then .error "Invalid base URL"
        else
          match url.toList with
          | u :: urest =>
            if u.isAlpha && (schemeSplit urest).isSome then .ok (ownPathname url.toList)
            else if u = '/' then .ok (stripQueryFragment url)
            else .ok (pathDirectory (pathAfterHost (afterColon.drop 2)) ++ stripQueryFragment url)
          | [] => .ok (pathAfterHost (afterColon.drop 2))

/-- The pathname computation shared by both request builders (src/index.ts
lines 107-111 and 146-150): `unboundPath` unchanged when `basePath` is
falsy (the empty string), otherwise `new URL(unboundPath, basePath).pathname`
with its possible `TypeError` threaded as `Except.error`. -/
def resolvePathname (basePath unboundPath : String) : Except String String :=
  if basePath ≠ "" then urlPathname unboundPath basePath
  else .ok unboundPath

/-- The five HTTP methods of the `HTTPMethod` union type. -/
inductive HTTPMethod where
  | GET
  | POST
  | PUT
  | DELETE
  | PATCH
  deriving Repr, DecidableEq

/-- String form of a method, as it appears in the request identifier. -/
def HTTPMethod.toString : HTTPMethod → String
  | .GET => "GET"
  | .POST => "POST"
  | .PUT => "PUT"
  | .DELETE => "DELETE"
  | .PATCH => "PATCH"

/-- Model of the transport `RequestInit` options the library observes: the
`body` property (`.undefined` models a missing body, as in a JavaScript
object without the property), with the remaining transport options (headers,
mode, credentials, signal, ...) kept opaque as key/value text. -/
structure RequestInit where
  body : JSValue := .undefined
  extra : List (String × String) := []
  deriving Repr

/-- Property read `v[key]` as the substitution loops perform it: a key
lookup on an object, `undefined` on anything else (in every reachable call
the receiver is an object). -/
def jsGet (v : JSValue) (key : String) : JSValue :=
  match v with
  | .obj kvs => ((kvs.find? fun p => p.1 == key).map Prod.snd).getD .undefined
  | _ => .undefined

/-- Property removal `delete v[key]`. -/
def jsDelete (v : JSValue) (key : String) : JSValue :=
  match v with
  | .obj kvs => .obj (kvs.filter fun p => p.1 != key)
  | other => other

mutual

/-- JavaScript string coercion `String(v)` for the modelled values. A date
is modelled as coercing to its ISO text (the real `Date` prints a
locale-independent long form; no claim coerces a date). -/
def jsToString : JSValue → String
  | .str s => s
  | .num n => toString n
  | .bool b => if b then "true" else "false"
  | .null => "null"
  | .undefined => "undefined"
  | .date iso => iso
  | .arr xs => String.intercalate "," (jsJoinItems xs)
  | .obj _ => "[object Object]"

/-- Element coercion of `Array.prototype.join`: `null` and `undefined`
become the empty string, everything else its string coercion. -/
def jsJoinItems : List JSValue → List String
  | [] => []
  | x :: rest =>
    (match x with
     | .null => ""
     | .undefined => ""
     | v => jsToString v) :: jsJoinItems rest

end

/-- Split of a character list at every occurrence of a separator
character. -/
def splitCharsOn (sep : Char) : List Char → List (List Char)
  | [] => [[]]
  | c :: rest =>
    let r := splitCharsOn sep rest
    if c = sep then [] :: r
    else
      match r with
      | h :: t => (c :: h) :: t
      | [] => [[c]]

/-- The segment split `pathname.split('/')` of the builders. -/
def splitOnSlash (s : String) : List String :=
  (splitCharsOn '/' s.toList).map String.mk

/-- The test `segment.startsWith(':')`. -/
def startsWithColon (s : String) : Bool :=
  match s.toList with
  | c :: _ => c = ':'
  | [] => false

/-- The key extraction `segment.slice(1)`. -/
def stringTail (s : String) : String :=
  String.mk (s.toList.drop 1)

/-- Coercion a substituted segment undergoes in `urlSegments.join('/')`:
`join` renders `null` and `undefined` as the empty string and coerces
everything else with `String`. -/
def segmentString (v : JSValue) : String :=
  match v with
  | .null => ""
  | .undefined => ""
  | v => jsToString v

/-- Merged-mode substitution loop (src/index.ts lines 113-122), the mutation
of the parameter copy threaded explicitly: a segment starting with `:` is
replaced by the copy's value at the key named by the rest of the segment
(already coerced as the final `join` will render it) and that key is deleted
from the copy; other segments pass through. Returns the rewritten segments
and what is left of the copy. -/
def substituteMerged : List String → JSValue → (List String × JSValue)
  | [], params => ([], params)
  | seg :: rest, params =>
    if startsWithColon seg then
      let key := stringTail seg
      let value := jsGet params key
      let params2 := jsDelete params key
      let (rest2, params3) := substituteMerged rest params2
      (segmentString value :: rest2, params3)
    else
      let (rest2, params2) := substituteMerged rest params
      (seg :: rest2, params2)

/-- Split-mode substitution loop (src/index.ts lines 155-161), threaded the
same way: colon segments are replaced by reads from `pathParameters`; the
loop contains no write, so the threaded value is returned as it came. -/
def substituteSplit : List String → JSValue → (List String × JSValue)
  | [], pathParameters => ([], pathParameters)
  | seg :: rest, pathParameters =>
    if startsWithColon seg then
      let value := jsGet pathParameters (stringTail seg)
      let (rest2, pp2) := substituteSplit rest pathParameters
      (segmentString value :: rest2, pp2)
    else
      let (rest2, pp2) := substituteSplit rest pathParameters
      (seg :: rest2, pp2)

/-- Embedding of `buildMergedRequestInit` (src/index.ts lines 99-131): deep
copy `params || {}` through JSON, resolve the pathname (a thrown
`TypeError` from the `URL` constructor becomes `Except.error`), substitute
and drain colon segments from the copy, prepend the base path; a `GET`
gets the query string of the remaining copy and the caller's options
untouched, any other method gets the remaining copy attached as the body. -/
def buildMergedRequestInit (method : HTTPMethod) (basePath unboundPath : String)
    (params : JSValue) (requestInit : Option RequestInit) :
    Except String (HTTPMethod × String × Option RequestInit) :=
  let paramCopy := jsonRoundTrip (if jsTruthy params then params else .obj [])
  match resolvePathname basePath unboundPath with
  | .error e => .error e
  | .ok pathname =>
    let urlSegments := splitOnSlash pathname
    let (segments, remaining) := substituteMerged urlSegments paramCopy
    let fullPath := basePath ++ String.intercalate "/" segments
    if method = .GET then
      .ok (method, fullPath ++ buildSearchString remaining, requestInit)
    else
      .ok (method, fullPath, some { requestInit.getD {} with body := remaining })

/-- Embedding of `buildSplitRequestInit` (src/index.ts lines 133-167):
resolve the pathname, substitute colon segments from `pathParameters` (only
when that argument is truthy; nothing is ever written to it, and the value
it holds after the call is returned alongside the result), append the query
string built from `queryParameters`, and attach `body` verbatim to the
options. -/
def buildSplitRequestInit (method : HTTPMethod) (basePath unboundPath : String)
    (pathParameters queryParameters body : JSValue) (requestInit : Option RequestInit) :
    Except String (HTTPMethod × String × RequestInit) × JSValue :=
  match resolvePathname basePath unboundPath with
  | .error e => (.error e, pathParameters)
  | .ok pathname =>
    let urlSegments := splitOnSlash pathname
    let (segments, ppFinal) :=
      if jsTruthy pathParameters then substituteSplit urlSegments pathParameters
      else (urlSegments, pathParameters)
    let fullPath := basePath ++ String.intercalate "/" segments ++ buildSearchString queryParameters
    (.ok (method, fullPath, { requestInit.getD {} with body := body }), ppFinal)

/-- Model of the transport response as the executor observes it: the status,
the value `headers.get('Content-Type')` returns (`none` for an absent
header), and the values each of the four body readers would produce. -/
structure ResponseModel where
  status : Nat
  contentType : Option String
  jsonBody : JSValue
  textBody : String
  blobBody : String
  formBody : List (String × String)
  deriving Repr

/-- The transport's success test `response.ok`: a status in the range
200 to 299. -/
def ResponseModel.ok (r : ResponseModel) : Bool :=
  200 ≤ r.status && r.status < 300

/-- The four shapes a parsed response body can take. -/
inductive ParsedBody where
  | json (v : JSValue)
  | blob (bytes : String)
  | form (fields : List (String × String))
  | text (s : String)
  deriving Repr

/-- Embedding of `processResponse` (src/index.ts lines 27-39): a switch on
the exact declared content type; `application/json` decodes as JSON,
`application/pdf` as a blob, the two form types as form data, and every
other value, the absent header included, as raw text. -/
def processResponse (rawResponse : ResponseModel) : ParsedBody :=
  match rawResponse.contentType with
  | some "application/json" => .json rawResponse.jsonBody
  | some "application/pdf" => .blob rawResponse.blobBody
  | some "multipart/form-data" => .form rawResponse.formBody
  | some "application/x-www-form-urlencoded" => .form rawResponse.formBody
  | _ => .text rawResponse.textBody

/-- Model of an `APIError` instance (src/error.ts): the fields the
constructor stores, plus the `name` and the `message` the `Error` base
class keeps. The `errorResponse` constructor argument is consumed to derive
the message and is not stored on the instance. -/
structure APIError where
  name : String
  message : String
  status : Nat
  requestIdentifier : String
  traceId : String
  deriving Repr, DecidableEq

/-- Optional-chained property read `body?.key` on a parsed response body: a
key lookup when the body parsed as a JSON object, `undefined` otherwise (a
text, blob or form-data body has no such own property). -/
def bodyProp (body : ParsedBody) (key : String) : JSValue :=
  match body with
  | .json v => jsGet v key
  | _ => .undefined

/-- Embedding of the `APIError` constructor (src/error.ts lines 8-17):
`message = errorResponse?.error || errorResponse?.message || status`, each
step taken when the previous value is falsy, the result coerced to text by
the `Error` base class. -/
def mkAPIError (status : Nat) (requestIdentifier traceId : String)
    (errorResponse : ParsedBody) : APIError :=
  let errorField := bodyProp errorResponse "error"
  let messageField := bodyProp errorResponse "message"
  let message :=
    if jsTruthy errorField then jsToString errorField
    else if jsTruthy messageField then jsToString messageField
    else toString status
  { name := "APIError", message, status, requestIdentifier, traceId }

/-- Embedding of the response-handling half of `makeRequest` (src/index.ts
lines 169-207). The outbound construction (default headers, credentials and
cors modes, JSON serialization of the body) only shapes what is sent on the
wire; the embedding takes the response the transport returned for that
request and models the value `makeRequest` returns or the error it throws.
The identifier generator is `some` the generated id when the one-time
module load succeeded, `none` when it failed (trace id falls back to the
empty string). The body is always parsed by content type first; a non-ok
status then throws the structured error, an ok status returns the parsed
body. -/
def makeRequest (method : HTTPMethod) (path : String) (uuidGen : Option String)
    (response : ResponseModel) : Except APIError ParsedBody :=
  let traceId := uuidGen.getD ""
  let responseBody := processResponse response
  if response.ok then .ok responseBody
  else .error (mkAPIError response.status (method.toString ++ ":" ++ path) traceId responseBody)

theorem prepareList_eq_filter (xs : List JSValue) :
    prepareList xs = (xs.map prepareParameters).filter jsTruthy := by
  induction xs with
  | nil => rfl
  | cons x rest ih =>
    cases h : jsTruthy (prepareParameters x) <;>
      simp [prepareList, List.filter_cons, h, ih]

theorem isAbsentRaw_prepareParameters (v : JSValue) (h : isAbsentRaw v = false) :
    isAbsentRaw (prepareParameters v) = false := by
  cases v with
  | str s =>
    have hs : ¬ s = "" := by simpa [isAbsentRaw] using h
    simp [prepareParameters, isAbsentRaw, hs]
  | null => simp [isAbsentRaw] at h
  | undefined => simp [isAbsentRaw] at h
  | num n => rfl
  | bool b => rfl
  | date iso => rfl
  | arr xs => rfl
  | obj kvs => rfl

mutual

theorem prepareParameters_idem : ∀ v, prepareParameters (prepareParameters v) = prepareParameters v
  | .str s => by by_cases hs : s = "" <;> simp [prepareParameters, hs]
  | .undefined => rfl
  | .null => rfl
  | .num n => rfl
  | .bool b => rfl
  | .date iso => rfl
  | .arr xs => by
    simp only [prepareParameters]
    exact congrArg JSValue.arr (prepareList_idem xs)
  | .obj kvs => by
    simp only [prepareParameters]
    exact congrArg JSValue.obj (prepareFields_idem kvs)

theorem prepareList_idem : ∀ xs, prepareList (prepareList xs) = prepareList xs
  | [] => rfl
  | x :: rest => by
    have hx := prepareParameters_idem x
    have hr := prepareList_idem rest
    cases h : jsTruthy (prepareParameters x) with
    | true => simp [prepareList, h, hx, hr]
    | false => simp [prepareList, h, hr]

theorem prepareFields_idem : ∀ kvs, prepareFields (prepareFields kvs) = prepareFields kvs
  | [] => rfl
  | (k, v) :: rest => by
    cases h : isAbsentRaw v with
    | true => simp [prepareFields, h, prepareFields_idem rest]
    | false =>
      have h1 := isAbsentRaw_prepareParameters v h
      simp [prepareFields, h, h1, prepareParameters_idem v, prepareFields_idem rest]

end

/-- C1, counterexample: on `{ tags: ['a', 'b'] }` the query string is the
percent-encoded JSON text of the array under the single key `tags`, which
differs from the repeated-key encoding `?tags=a&tags=b` the claim states. -/
theorem claim_C1_counterexample :
    buildSearchString (.obj [("tags", .arr [.str "a", .str "b"])]) = "?tags=%5B%22a%22%2C%22b%22%5D" ∧
    "?tags=%5B%22a%22%2C%22b%22%5D" ≠ "?tags=a&tags=b" :=
  ⟨rfl, by decide⟩

/-- C1, amended: for the input `{ tags: ['a', 'b'] }`, `buildSearchString`
first JSON-stringifies the top-level array (an array is object-typed and not
a `Date`, so the top-level JSON conversion pass applies to it), then encodes
that text as one percent-encoded `key=value` pair: the result is
`?tags=%5B%22a%22%2C%22b%22%5D`; the repeated-key array format never sees a
top-level array. -/
theorem claim_C1_tags_json_stringified :
    buildSearchString (.obj [("tags", .arr [.str "a", .str "b"])]) =
      "?tags=" ++ qsEncode (jsonStringify (.arr [.str "a", .str "b"])) ∧
    "?tags=" ++ qsEncode (jsonStringify (.arr [.str "a", .str "b"])) = "?tags=%5B%22a%22%2C%22b%22%5D" :=
  ⟨rfl, rfl⟩

/-- C2, counterexample: the element `false` sanitizes to itself (`false` is
not empty string, null or undefined), yet `prepareParameters` drops it from
the sequence `[false, 'x']`, because the source keeps an element only when
its prepared value is truthy. -/
theorem claim_C2_counterexample :
    prepareParameters (.bool false) = .bool false ∧
    prepareParameters (.arr [.bool false, .str "x"]) = .arr [.str "x"] ∧
    JSValue.arr [.str "x"] ≠ .arr [.bool false, .str "x"] :=
  ⟨rfl, rfl, by simp⟩

/-- C2, amended: each element of a sequence is recursively sanitized and
kept exactly when its sanitized value is JavaScript-truthy, in order: so
besides the elements that sanitize to the absent sentinel, falsy scalars
such as `false` and `0` are dropped too, while an object element is always
kept — even when it sanitizes to the empty mapping, since an empty object
is truthy. -/
theorem claim_C2_sequence_elements :
    (∀ xs, prepareParameters (.arr xs) = .arr ((xs.map prepareParameters).filter jsTruthy)) ∧
    (∀ kvs, jsTruthy (prepareParameters (.obj kvs)) = true) := by
  refine ⟨fun xs => ?_, fun kvs => rfl⟩
  simp only [prepareParameters]
  exact congrArg JSValue.arr (prepareList_eq_filter xs)

/-- C3: the parameter sanitizer is idempotent: sanitizing twice equals
sanitizing once, for every parameter tree of scalars, dates, sequences and
mappings. -/
theorem claim_C3_sanitizer_idempotent (P : JSValue) :
    prepareParameters (prepareParameters P) = prepareParameters P :=
  prepareParameters_idem P

theorem qsStringify_empty_or_query (v : JSValue) :
    qsStringify v = "" ∨ ∃ rest, qsStringify v = "?" ++ rest := by
  by_cases h : (qsValuePairs v).isEmpty <;> simp [qsStringify, h]

/-- C4: `buildSearchString` returns the empty string on the empty mapping,
on `undefined` and on `null`; it returns the empty string whenever the
input sanitizes to a falsy value; and every non-empty result begins with
`?`. -/
theorem claim_C4_empty_inputs :
    buildSearchString (.obj []) = "" ∧
    buildSearchString .undefined = "" ∧
    buildSearchString .null = "" ∧
    (∀ p, jsTruthy (prepareParameters p) = false → buildSearchString p = "") ∧
    (∀ p, buildSearchString p = "" ∨ ∃ rest, buildSearchString p = "?" ++ rest) := by
  refine ⟨rfl, rfl, rfl, fun p h => ?_, fun p => ?_⟩
  · simp [buildSearchString, h]
  · by_cases h : jsTruthy (prepareParameters p)
    · simpa [buildSearchString, h] using
        qsStringify_empty_or_query (stringifyTopLevelObjects (prepareParameters p))
    · simp [buildSearchString, h]

/-- C4, witness: the scalar `0` sanitizes to itself, which is falsy, so the
general part of C4 applies to it and gives the empty string. -/
theorem claim_C4_witness : buildSearchString (.num 0) = "" :=
  claim_C4_empty_inputs.2.2.2.1 (.num 0) rfl

/-- C5: the spec example itself crashes. The WHATWG `URL` constructor
requires an absolute base, so `new URL('/users/:id', '/api/v1')` throws
`TypeError: Invalid base URL` before any substitution happens; the embedding
returns that error instead of the URL `/api/v1/users/42?active=true` the
claim states. -/
theorem claim_C5_relative_base_throws :
    buildMergedRequestInit .GET "/api/v1" "/users/:id"
      (.obj [("id", .str "42"), ("active", .bool true)]) none = .error "Invalid base URL" := rfl

/-- C6: the non-GET example crashes the same way: with the relative base
`/api/v1` the `URL` constructor throws before the method is even examined,
so no URL `/api/v1/login` and no body are produced. -/
theorem claim_C6_post_example_throws :
    buildMergedRequestInit .POST "/api/v1" "/login"
      (.obj [("username", .str "a"), ("password", .str "b")]) none = .error "Invalid base URL" := rfl

theorem substituteSplit_snd (segs : List String) (pp : JSValue) :
    (substituteSplit segs pp).2 = pp := by
  induction segs with
  | nil => rfl
  | cons seg rest ih =>
    rcases hsplit : substituteSplit rest pp with ⟨rest2, pp2⟩
    have hpp : pp2 = pp := by rw [hsplit] at ih; exact ih
    by_cases h : startsWithColon seg <;> simp [substituteSplit, h, hsplit, hpp]

/-- C7: the split builder never mutates its path-parameter source — the
threaded path-parameter value comes back unchanged from every call, even a
call that throws in the `URL` constructor — and whenever a result is
produced, its body is exactly the `body` argument and its URL is the
resolved path followed by a query string built from `queryParameters`
alone, so no path-parameter key reaches the query string or the body. -/
theorem claim_C7_split_never_drains :
    (∀ method basePath unboundPath pp qp b ri,
        (buildSplitRequestInit method basePath unboundPath pp qp b ri).2 = pp) ∧
    (∀ method basePath unboundPath pp qp b ri m2 url init,
        (buildSplitRequestInit method basePath unboundPath pp qp b ri).1 = .ok (m2, url, init) →
        init.body = b ∧ ∃ pathPart, url = basePath ++ pathPart ++ buildSearchString qp) := by
  constructor
  · intro method basePath unboundPath pp qp b ri
    unfold buildSplitRequestInit
    cases hres : resolvePathname basePath unboundPath with
    | error e => simp
    | ok pathname =>
      rcases hsub : substituteSplit (splitOnSlash pathname) pp with ⟨segments, ppF⟩
      have h2 : ppF = pp := by
        have := substituteSplit_snd (splitOnSlash pathname) pp
        rw [hsub] at this; exact this
      by_cases h : jsTruthy pp <;> simp [h, hsub, h2]
  · intro method basePath unboundPath pp qp b ri m2 url init h
    unfold buildSplitRequestInit at h
    cases hres : resolvePathname basePath unboundPath with
    | error e => rw [hres] at h; simp at h
    | ok pathname =>
      rw [hres] at h
      dsimp only at h
      by_cases htr : jsTruthy pp = true
      · rw [if_pos htr] at h
        rcases hsub : substituteSplit (splitOnSlash pathname) pp with ⟨segments, ppF⟩
        rw [hsub] at h
        dsimp only at h
        simp only [Except.ok.injEq, Prod.mk.injEq] at h
        obtain ⟨hm, hurl, hinit⟩ := h
        refine ⟨?_, String.intercalate "/" segments, hurl.symm⟩
        rw [← hinit]
      · rw [if_neg htr] at h
        dsimp only at h
        simp only [Except.ok.injEq, Prod.mk.injEq] at h
        obtain ⟨hm, hurl, hinit⟩ := h
        refine ⟨?_, String.intercalate "/" (splitOnSlash pathname), hurl.symm⟩
        rw [← hinit]

/-- C7, witness: the concrete split call of the claim, with the empty base
path (the claim's base `/api/v1` makes the `URL` constructor throw, which
still leaves the path parameters untouched — the unconditional first part —
but produces no URL to inspect): the path-parameter source comes back
unchanged, the body is the one passed, and the URL splits into path and
query-parameter-derived query string. -/
theorem claim_C7_witness :
    (buildSplitRequestInit .GET "" "/users/:id" (.obj [("id", .str "7")])
        (.obj [("includeProfile", .bool true)]) .undefined none).2 = .obj [("id", .str "7")] ∧
    (RequestInit.mk .undefined []).body = .undefined ∧
    ∃ pathPart, "/users/7?includeProfile=true" =
      "" ++ pathPart ++ buildSearchString (.obj [("includeProfile", .bool true)]) :=
  ⟨claim_C7_split_never_drains.1 .GET "" "/users/:id" (.obj [("id", .str "7")])
      (.obj [("includeProfile", .bool true)]) .undefined none,
   claim_C7_split_never_drains.2 .GET "" "/users/:id" (.obj [("id", .str "7")])
      (.obj [("includeProfile", .bool true)]) .undefined none
      .GET "/users/7?includeProfile=true" (RequestInit.mk .undefined []) rfl⟩

/-- C8, counterexample: a 404 response whose JSON body has an `error` field
that is present but empty (falsy) together with a `message` field: the
claim says the message is the `error` field whenever present, but the
constructor's truthiness chain skips the empty `error` and takes `hi` from
the `message` field instead. -/
theorem claim_C8_counterexample :
    makeRequest .GET "/x" none
      { status := 404, contentType := some "application/json",
        jsonBody := .obj [("error", .str ""), ("message", .str "hi")],
        textBody := "", blobBody := "", formBody := [] } =
      .error { name := "APIError", message := "hi", status := 404,
               requestIdentifier := "GET:/x", traceId := "" } ∧
    "hi" ≠ "" :=
  ⟨rfl, by decide⟩

/-- C8, amended: on every non-2xx response `makeRequest` fails with an
`APIError` carrying the response status, the request identifier
`METHOD:PATH` and the trace id, with a message taken from the parsed body's
`error` field when that is truthy, else from its `message` field when that
is truthy, else the numeric status rendered as text (the parsed body itself
is only consumed to derive the message — the error instance does not store
it); on every 2xx response `makeRequest` returns the parsed body and raises
nothing. -/
theorem claim_C8_error_shape (method : HTTPMethod) (path : String)
    (gen : Option String) (r : ResponseModel) :
    (r.ok = false → makeRequest method path gen r = .error
        { name := "APIError",
          message :=
            if jsTruthy (bodyProp (processResponse r) "error") then
              jsToString (bodyProp (processResponse r) "error")
            else if jsTruthy (bodyProp (processResponse r) "message") then
              jsToString (bodyProp (processResponse r) "message")
            else toString r.status,
          status := r.status,
          requestIdentifier := method.toString ++ ":" ++ path,
          traceId := gen.getD "" }) ∧
    (r.ok = true → makeRequest method path gen r = .ok (processResponse r)) := by
  constructor
  · intro h; simp [makeRequest, h, mkAPIError]
  · intro h; simp [makeRequest, h]

/-- C8, witness: the concrete case of the claim — status 404 with JSON body
whose `error` field is `not found` — produces the structured error with
message `not found` and status 404. -/
theorem claim_C8_witness :
    makeRequest .GET "/users/1" none
      { status := 404, contentType := some "application/json",
        jsonBody := .obj [("error", .str "not found")],
        textBody := "", blobBody := "", formBody := [] } =
      .error { name := "APIError", message := "not found", status := 404,
               requestIdentifier := "GET:/users/1", traceId := "" } := by
  have h := (claim_C8_error_shape .GET "/users/1" none
    { status := 404, contentType := some "application/json",
      jsonBody := .obj [("error", .str "not found")],
      textBody := "", blobBody := "", formBody := [] }).1 rfl
  exact h.trans rfl

/-- C9: response parsing dispatches on the declared content type exactly:
`application/json` parses as JSON, `application/pdf` as a blob,
`multipart/form-data` and `application/x-www-form-urlencoded` as form data,
and every other declared value — as well as an absent header — as raw
text. -/
theorem claim_C9_content_type_dispatch (r : ResponseModel) :
    (r.contentType = some "application/json" → processResponse r = .json r.jsonBody) ∧
    (r.contentType = some "application/pdf" → processResponse r = .blob r.blobBody) ∧
    (r.contentType = some "multipart/form-data" → processResponse r = .form r.formBody) ∧
    (r.contentType = some "application/x-www-form-urlencoded" → processResponse r = .form r.formBody) ∧
    (r.contentType = none → processResponse r = .text r.textBody) ∧
    (∀ ct, r.contentType = some ct →
        ct ≠ "application/json" → ct ≠ "application/pdf" → ct ≠ "multipart/form-data" →
        ct ≠ "application/x-www-form-urlencoded" → processResponse r = .text r.textBody) := by
  refine ⟨fun h => ?_, fun h => ?_, fun h => ?_, fun h => ?_, fun h => ?_,
    fun ct h h1 h2 h3 h4 => ?_⟩
  all_goals simp only [processResponse, h]
  split <;> simp_all

/-- C9, witness: a response declaring `application/json` is decoded as its
JSON body, by the first clause of the dispatch theorem. -/
theorem claim_C9_witness :
    processResponse
      { status := 200, contentType := some "application/json",
        jsonBody := .obj [("token", .str "t")],
        textBody := "", blobBody := "", formBody := [] } =
      .json (.obj [("token", .str "t")]) :=
  (claim_C9_content_type_dispatch
    { status := 200, contentType := some "application/json",
      jsonBody := .obj [("token", .str "t")],
      textBody := "", blobBody := "", formBody := [] }).1 rfl

/-- C10: when the path-parameter argument is falsy (`undefined` or `null`),
the substitution loop is skipped entirely: every produced URL is exactly
the base path, the segment-by-segment rejoin of the resolved pathname with
no segment altered (so each colon-prefixed segment of the template's
resolved pathname appears verbatim, colon included), and the query
string. -/
theorem claim_C10_falsy_path_parameters :
    ∀ method basePath unboundPath pp qp b ri m2 url init,
      jsTruthy pp = false →
      (buildSplitRequestInit method basePath unboundPath pp qp b ri).1 = .ok (m2, url, init) →
      ∃ pathname, resolvePathname basePath unboundPath = .ok pathname ∧
        url = basePath ++ String.intercalate "/" (splitOnSlash pathname) ++ buildSearchString qp := by
  intro method basePath unboundPath pp qp b ri m2 url init hpp h
  unfold buildSplitRequestInit at h
  cases hres : resolvePathname basePath unboundPath with
  | error e => rw [hres] at h; simp at h
  | ok pathname =>
    rw [hres] at h
    dsimp only at h
    rw [if_neg (by simp [hpp])] at h
    dsimp only at h
    simp only [Except.ok.injEq, Prod.mk.injEq] at h
    exact ⟨pathname, rfl, h.2.1.symm⟩

/-- C10, witness: with an omitted (undefined) path-parameter argument, the
template `/users/:id` keeps its colon segment verbatim in the returned
URL. -/
theorem claim_C10_witness :
    ∃ pathname, resolvePathname "" "/users/:id" = .ok pathname ∧
      "/users/:id" = "" ++ String.intercalate "/" (splitOnSlash pathname) ++ buildSearchString .undefined :=
  claim_C10_falsy_path_parameters .GET "" "/users/:id" .undefined .undefined .undefined none
    .GET "/users/:id" (RequestInit.mk .undefined []) rfl rfl
